import Mathlib

/-!
Shallow embedding of the `service` Go package (files `application.go`,
`errors.go`, and the `ServiceKeeper` file) in Lean 4, together with
theorems settling the frozen claims about its specification.

Modelling conventions:
* Go `error` values are modelled as `Option String` (`none` = nil error);
  the package's own `appError` constants are the corresponding strings.
* The `int32` lifecycle state is modelled as a `Nat` carrying the same
  `iota` constants (`appStateInit = 0`, ...).
* Channels `halt` and `done` are one-shot close signals; whether each has
  been closed is a `Bool` field, and every `close` is also emitted as an event so that
  "closed at most once" can be stated as a count over the event trace.
* Each operation returns, besides its result, the updated `Application`
  and the list of observable events it performed (state writes, channel
  closes, invocations of the resource capability or the main routine).
* `Application.Run` in the source is syntactically incomplete Go: the
  goroutine body at lines 75-81 is not a well-formed statement and the
  function body ends without a `return` on both the CAS-failure path and
  the successful-initialization path.  Falling off the end of the
  function is modelled explicitly by the result `RunResult.missingReturn`
  and performs no further effect.
-/

namespace Goservice

/-- Source `errors.go`: `type appError string`. -/
abbrev appError := String

/-- Source `errors.go`: `ErrWrongState appError = "wrong application state"`. -/
def ErrWrongState : appError := "wrong application state"

/-- Source `errors.go`: `ErrMainOmitted appError = "main function is omitted"`. -/
def ErrMainOmitted : appError := "main function is omitted"

/-- Source `errors.go`: `ErrTermTimeout appError = "termination timeout"`. -/
def ErrTermTimeout : appError := "termination timeout"

/-- Source `application.go` lines 51-56: the `int32` lifecycle constants. -/
def appStateInit : Nat := 0

def appStateRunning : Nat := 1

def appStateHalt : Nat := 2

def appStateShutdown : Nat := 3

/-- The `Resources` interface (`application.go` lines 11-22).  Only `Init`
is ever reached by the code; its outcome under the initialization deadline
is modelled as the nilable error `initErr`.  `Watch`, `Stop` and `Release`
are never invoked anywhere in the source. -/
structure Resources where
  initErr : Option String
  deriving DecidableEq, Repr

/-- Observable events of an `Application` operation.  `casWrite old new` is
a successful `atomic.CompareAndSwapInt32` on `appState`; `storeWrite new`
is a plain (non-CAS) assignment to `appState` (line 68); `closeHalt` /
`closeDone` are `close` of the corresponding channel; `invokeResInit`,
`invokeWatch`, `invokeMain` are invocations of `Resources.Init`,
`Resources.Watch` and `MainFunc`.  (`invokeWatch`/`invokeMain`/`closeDone`
are never emitted: no code path in the source reaches them.) -/
inductive Ev where
  | casWrite (old new : Nat)
  | storeWrite (new : Nat)
  | closeHalt
  | closeDone
  | invokeResInit
  | invokeWatch
  | invokeMain
  deriving DecidableEq, Repr

/-- The `Application` struct (`application.go` lines 24-48).  `MainFunc`
is modelled by the nilable error it would return (it is never invoked by
the source); `haltClosed`/`doneClosed` record whether the `halt`/`done`
channels have been closed.  The `mux sync.Mutex` field is declared in the
source but never used by any method, so it has no counterpart here. -/
structure Application where
  MainFunc : Option (Option String)
  Resources : Option Resources
  TerminationTimeout : Nat
  InitializationTimeout : Nat
  appState : Nat
  err : Option String
  haltClosed : Bool
  doneClosed : Bool
  deriving DecidableEq, Repr

/-- Source `application.go` lines 94-96: `checkState` is an atomic
compare-and-set on `appState`, returning whether it won. -/
def Application.checkState (a : Application) (old new : Nat) :
    Bool × Application :=
  if a.appState = old then (true, { a with appState := new }) else (false, a)

/-- Source `application.go` lines 85-92: `init` runs `Resources.Init` under the
initialization deadline when a capability is configured, else returns nil.
The returned event list records whether `Resources.Init` was invoked. -/
def Application.initResult (a : Application) : Option String × List Ev :=
  match a.Resources with
  | some r => (r.initErr, [Ev.invokeResInit])
  | none => (none, [])

/-- Result of `Application.Run`: either a returned Go `error` value, or
control falling off the end of the (incomplete) function body. -/
inductive RunResult where
  | ret (e : Option String)
  | missingReturn
  deriving DecidableEq, Repr

/-- Source `application.go` lines 58-83: `Run`.
* `MainFunc == nil` → return `ErrMainOmitted` (lines 59-62).
* CAS `Init→Running` won (line 64): run `init`; on error `err`, assign
  `a.err = err`, assign `a.appState = appStateShutdown` directly (a plain
  store, not a CAS) and return `err` (lines 66-71).  On nil error the
  remaining body (lines 73-81) is syntactically broken Go and the function
  ends with no `return`: modelled as `missingReturn` with no effect.
* CAS lost: the body ends immediately with no `return`: `missingReturn`. -/
def Application.run (a : Application) : RunResult × Application × List Ev :=
  match a.MainFunc with
  | none => (RunResult.ret (some ErrMainOmitted), a, [])
  | some _ =>
    let c := a.checkState appStateInit appStateRunning
    if c.1 then
      let ir := c.2.initResult
      match ir.1 with
      | some e =>
        (RunResult.ret (some e),
         { c.2 with err := some e, appState := appStateShutdown },
         Ev.casWrite appStateInit appStateRunning :: ir.2 ++
           [Ev.storeWrite appStateShutdown])
      | none =>
        (RunResult.missingReturn, c.2,
         Ev.casWrite appStateInit appStateRunning :: ir.2)
    else
      (RunResult.missingReturn, a, [])

/-- Source `application.go` lines 99-103: `Halt` closes the `halt` channel iff it
wins the CAS `Running→Halt`. -/
def Application.halt (a : Application) : Application × List Ev :=
  let c := a.checkState appStateRunning appStateHalt
  if c.1 then
    ({ c.2 with haltClosed := true },
     [Ev.casWrite appStateRunning appStateHalt, Ev.closeHalt])
  else
    (c.2, [])

/-- Source `application.go` lines 106-108: `Shutdown` only calls `Halt`; no other
statement is present in its body. -/
def Application.shutdown (a : Application) : Application × List Ev :=
  a.halt

/-- A public operation on an `Application`; sequences of these model any
interleaving of (atomic) `Run`/`Halt`/`Shutdown` calls. -/
inductive AOp where
  | run
  | halt
  | shutdown
  deriving DecidableEq, Repr

/-- One atomic public call. -/
def stepA (a : Application) : AOp → Application × List Ev
  | AOp.run => ((a.run).2.1, (a.run).2.2)
  | AOp.halt => a.halt
  | AOp.shutdown => a.shutdown

/-- Execute a sequence of public calls, concatenating their event
traces. -/
def runA : Application → List AOp → Application × List Ev
  | a, [] => (a, [])
  | a, op :: ops =>
    let s := stepA a op
    let rest := runA s.1 ops
    (rest.1, s.2 ++ rest.2)

/-! ### Characterizations of the public operations, by case -/

theorem halt_of_running (a : Application) (h : a.appState = appStateRunning) :
    a.halt = ({ a with appState := appStateHalt, haltClosed := true },
      [Ev.casWrite appStateRunning appStateHalt, Ev.closeHalt]) := by
  simp [Application.halt, Application.checkState, h]

theorem halt_of_not_running (a : Application)
    (h : a.appState ≠ appStateRunning) : a.halt = (a, []) := by
  simp [Application.halt, Application.checkState, h]

theorem run_of_noMain (a : Application) (h : a.MainFunc = none) :
    a.run = (RunResult.ret (some ErrMainOmitted), a, []) := by
  simp [Application.run, h]

theorem run_of_notInit (a : Application) (f : Option String)
    (hm : a.MainFunc = some f) (h : a.appState ≠ appStateInit) :
    a.run = (RunResult.missingReturn, a, []) := by
  simp [Application.run, hm, Application.checkState, h]

theorem run_of_init_noRes (a : Application) (f : Option String)
    (hm : a.MainFunc = some f) (h : a.appState = appStateInit)
    (hr : a.Resources = none) :
    a.run = (RunResult.missingReturn, { a with appState := appStateRunning },
      [Ev.casWrite appStateInit appStateRunning]) := by
  simp [Application.run, hm, Application.checkState, h,
    Application.initResult, hr]

theorem run_of_resInit_ok (a : Application) (f : Option String)
    (r : Resources) (hm : a.MainFunc = some f)
    (h : a.appState = appStateInit) (hr : a.Resources = some r)
    (he : r.initErr = none) :
    a.run = (RunResult.missingReturn, { a with appState := appStateRunning },
      [Ev.casWrite appStateInit appStateRunning, Ev.invokeResInit]) := by
  simp [Application.run, hm, Application.checkState, h,
    Application.initResult, hr, he]

theorem run_of_resInit_err (a : Application) (f : Option String)
    (r : Resources) (e : String) (hm : a.MainFunc = some f)
    (h : a.appState = appStateInit) (hr : a.Resources = some r)
    (he : r.initErr = some e) :
    a.run = (RunResult.ret (some e),
      { a with appState := appStateShutdown, err := some e },
      [Ev.casWrite appStateInit appStateRunning, Ev.invokeResInit,
        Ev.storeWrite appStateShutdown]) := by
  simp [Application.run, hm, Application.checkState, h,
    Application.initResult, hr, he]

/-- Exhaustive enumeration of what a single public call can do: either it
is a no-op with an empty trace, or it is one of the three effectful paths
(`Init→Running` CAS in `Run`, the direct-store `Shutdown` path of `Run`,
the `Running→Halt` CAS plus `close(halt)` of `Halt`/`Shutdown`). -/
theorem stepA_trace_cases (a : Application) (op : AOp) :
    ((stepA a op).2 = [] ∧ (stepA a op).1 = a) ∨
    (a.appState = appStateInit ∧
      (stepA a op).1.appState = appStateRunning ∧
      ((stepA a op).2 = [Ev.casWrite appStateInit appStateRunning] ∨
       (stepA a op).2 =
         [Ev.casWrite appStateInit appStateRunning, Ev.invokeResInit])) ∨
    (a.appState = appStateInit ∧
      (stepA a op).1.appState = appStateShutdown ∧
      (stepA a op).2 =
        [Ev.casWrite appStateInit appStateRunning, Ev.invokeResInit,
          Ev.storeWrite appStateShutdown]) ∨
    (a.appState = appStateRunning ∧
      (stepA a op).1.appState = appStateHalt ∧
      (stepA a op).2 =
        [Ev.casWrite appStateRunning appStateHalt, Ev.closeHalt]) := by
  cases op with
  | run =>
    match hm : a.MainFunc with
    | none => exact Or.inl (by simp [stepA, run_of_noMain a hm])
    | some f =>
      by_cases h : a.appState = appStateInit
      · match hr : a.Resources with
        | none =>
          exact Or.inr (Or.inl ⟨h, by simp [stepA, run_of_init_noRes a f hm h hr]⟩)
        | some r =>
          match he : r.initErr with
          | none =>
            exact Or.inr (Or.inl ⟨h, by
              simp [stepA, run_of_resInit_ok a f r hm h hr he]⟩)
          | some e =>
            exact Or.inr (Or.inr (Or.inl ⟨h, by
              simp [stepA, run_of_resInit_err a f r e hm h hr he]⟩))
      · exact Or.inl (by simp [stepA, run_of_notInit a f hm h])
  | halt =>
    by_cases h : a.appState = appStateRunning
    · exact Or.inr (Or.inr (Or.inr ⟨h, by simp [stepA, halt_of_running a h]⟩))
    · exact Or.inl (by simp [stepA, halt_of_not_running a h])
  | shutdown =>
    by_cases h : a.appState = appStateRunning
    · exact Or.inr (Or.inr (Or.inr ⟨h, by
        simp [stepA, Application.shutdown, halt_of_running a h]⟩))
    · exact Or.inl (by simp [stepA, Application.shutdown, halt_of_not_running a h])

/-! ### Counting events over traces -/

/-- Number of events of a trace satisfying `p`. -/
def evCount (p : Ev → Bool) (t : List Ev) : Nat := t.countP p

/-- The event is the successful `Init→Running` CAS. -/
def isCasIR (e : Ev) : Bool :=
  decide (e = Ev.casWrite appStateInit appStateRunning)

/-- The event is the successful `Running→Halt` CAS. -/
def isCasRH (e : Ev) : Bool :=
  decide (e = Ev.casWrite appStateRunning appStateHalt)

/-- The event is a `close(a.halt)`. -/
def isCloseHalt (e : Ev) : Bool := decide (e = Ev.closeHalt)

/-- Upper bound on how many `Init→Running` CAS wins are still possible
from a given state. -/
def boundIR (a : Application) : Nat :=
  if a.appState = appStateInit then 1 else 0

/-- Upper bound on how many `Running→Halt` CAS wins (and hence `halt`
closes) are still possible from a given state. -/
def boundRH (a : Application) : Nat :=
  if a.appState = appStateInit ∨ a.appState = appStateRunning then 1 else 0

theorem evCount_runA_le (p : Ev → Bool) (B : Application → Nat)
    (hstep : ∀ a op, evCount p (stepA a op).2 + B (stepA a op).1 ≤ B a) :
    ∀ ops a, evCount p (runA a ops).2 ≤ B a := by
  intro ops
  induction ops with
  | nil => intro a; simp [runA, evCount]
  | cons op ops ih =>
    intro a
    have h1 := hstep a op
    have h2 := ih (stepA a op).1
    have h3 : evCount p (runA a (op :: ops)).2 =
        evCount p (stepA a op).2 + evCount p (runA (stepA a op).1 ops).2 := by
      simp [runA, evCount, List.countP_append]
    omega

theorem evCount_runA_eq (p q : Ev → Bool)
    (hstep : ∀ a op, evCount p (stepA a op).2 = evCount q (stepA a op).2) :
    ∀ ops a, evCount p (runA a ops).2 = evCount q (runA a ops).2 := by
  intro ops
  induction ops with
  | nil => intro a; simp [runA, evCount]
  | cons op ops ih =>
    intro a
    have h1 := hstep a op
    have h2 := ih (stepA a op).1
    simp only [runA, evCount, List.countP_append] at h1 h2 ⊢
    omega

theorem mem_runA (P : Ev → Prop)
    (hstep : ∀ a op e, e ∈ (stepA a op).2 → P e) :
    ∀ ops a e, e ∈ (runA a ops).2 → P e := by
  intro ops
  induction ops with
  | nil => intro a e he; simp [runA] at he
  | cons op ops ih =>
    intro a e he
    simp only [runA, List.mem_append] at he
    rcases he with he | he
    · exact hstep a op e he
    · exact ih (stepA a op).1 e he

theorem stepA_casIR_le (a : Application) (op : AOp) :
    evCount isCasIR (stepA a op).2 + boundIR (stepA a op).1 ≤ boundIR a := by
  rcases stepA_trace_cases a op with ⟨ht, hp⟩ | h
  · simp [ht, hp, evCount]
  · rcases h with ⟨hs, hp, ht | ht⟩ | ⟨hs, hp, ht⟩ | ⟨hs, hp, ht⟩ <;>
      simp [ht, hp, hs, evCount, boundIR, isCasIR, List.countP_cons,
        List.countP_nil, appStateInit, appStateRunning, appStateHalt,
        appStateShutdown]

theorem stepA_casRH_le (a : Application) (op : AOp) :
    evCount isCasRH (stepA a op).2 + boundRH (stepA a op).1 ≤ boundRH a := by
  rcases stepA_trace_cases a op with ⟨ht, hp⟩ | h
  · simp [ht, hp, evCount]
  · rcases h with ⟨hs, hp, ht | ht⟩ | ⟨hs, hp, ht⟩ | ⟨hs, hp, ht⟩ <;>
      simp [ht, hp, hs, evCount, boundRH, isCasRH, List.countP_cons,
        List.countP_nil, appStateInit, appStateRunning, appStateHalt,
        appStateShutdown]

theorem stepA_closeHalt_le (a : Application) (op : AOp) :
    evCount isCloseHalt (stepA a op).2 + boundRH (stepA a op).1 ≤ boundRH a := by
  rcases stepA_trace_cases a op with ⟨ht, hp⟩ | h
  · simp [ht, hp, evCount]
  · rcases h with ⟨hs, hp, ht | ht⟩ | ⟨hs, hp, ht⟩ | ⟨hs, hp, ht⟩ <;>
      simp [ht, hp, hs, evCount, boundRH, isCloseHalt, List.countP_cons,
        List.countP_nil, appStateInit, appStateRunning, appStateHalt,
        appStateShutdown]

theorem stepA_closeHalt_eq_casRH (a : Application) (op : AOp) :
    evCount isCloseHalt (stepA a op).2 = evCount isCasRH (stepA a op).2 := by
  rcases stepA_trace_cases a op with
    ⟨ht, hp⟩ | ⟨hs, hp, ht | ht⟩ | ⟨hs, hp, ht⟩ | ⟨hs, hp, ht⟩ <;>
    rw [ht] <;> decide

theorem stepA_store_shutdown (a : Application) (op : AOp) :
    ∀ e ∈ (stepA a op).2, ∀ n, e = Ev.storeWrite n → n = appStateShutdown := by
  rcases stepA_trace_cases a op with
    ⟨ht, hp⟩ | ⟨hs, hp, ht | ht⟩ | ⟨hs, hp, ht⟩ | ⟨hs, hp, ht⟩ <;>
    rw [ht] <;> intro e he n hn <;> subst hn <;> simp at he <;> exact he

theorem stepA_cas_shape (a : Application) (op : AOp) :
    ∀ e ∈ (stepA a op).2, ∀ o n, e = Ev.casWrite o n →
      (o = appStateInit ∧ n = appStateRunning) ∨
      (o = appStateRunning ∧ n = appStateHalt) := by
  rcases stepA_trace_cases a op with
    ⟨ht, hp⟩ | ⟨hs, hp, ht | ht⟩ | ⟨hs, hp, ht⟩ | ⟨hs, hp, ht⟩ <;>
    rw [ht] <;> intro e he o n hn <;> subst hn <;> simp at he <;> tauto

/-! ### The `ServiceKeeper` bootstrapper -/

/-- The `Service` interface of the `ServiceKeeper` file.  Only `Init` is
reached by the code under the claims; its outcome is modelled by the
nilable error `initErr` (`Ping` and `Close` are not referenced by
`ServiceKeeper.Init`). -/
structure Service where
  initErr : Option String
  deriving DecidableEq, Repr

/-- The `iota` state constants of the `ServiceKeeper` file (the source
spells the third one `srvStateRunnig`). -/
def srvStateInit : Nat := 0

def srvStateReady : Nat := 1

def srvStateRunnig : Nat := 2

def srvStateShutdown : Nat := 3

def srvStateOff : Nat := 4

/-- The `ServiceKeeper` struct: a fixed slice of services and an `int32`
state used to control executing stages. -/
structure ServiceKeeper where
  Services : List Service
  state : Nat
  deriving DecidableEq, Repr

/-- Atomic compare-and-set on `ServiceKeeper.state` (lines 50-52 of the
`ServiceKeeper` file). -/
def ServiceKeeper.checkState (s : ServiceKeeper) (old new : Nat) :
    Bool × ServiceKeeper :=
  if s.state = old then (true, { s with state := new }) else (false, s)

/-- Lines 40-47 of the `ServiceKeeper` file: `initAllServices` initializes
the services of the slice one after another, returning at the first error.
The second component counts how many services had `Init` invoked (the
failing one included). -/
def initAllServices : List Service → Option String × Nat
  | [] => (none, 0)
  | svc :: rest =>
    match svc.initErr with
    | some e => (some e, 1)
    | none =>
      let r := initAllServices rest
      (r.1, r.2 + 1)

/-- Lines 54-59 of the `ServiceKeeper` file: `Init` first consumes the
`srvStateInit→srvStateReady` guard (returning `ErrWrongState` if it
loses), then runs `initAllServices`.  The third component is the number
of services whose `Init` was invoked during the call. -/
def ServiceKeeper.Init (s : ServiceKeeper) : Option String × ServiceKeeper × Nat :=
  let c := s.checkState srvStateInit srvStateReady
  if c.1 then
    let r := initAllServices c.2.Services
    (r.1, c.2, r.2)
  else
    (some ErrWrongState, c.2, 0)

theorem initAllServices_all_none (l : List Service)
    (h : ∀ svc ∈ l, svc.initErr = none) :
    initAllServices l = (none, l.length) := by
  induction l with
  | nil => rfl
  | cons svc rest ih =>
    have h0 : svc.initErr = none := h svc (List.mem_cons_self svc rest)
    have ih2 := ih (fun s2 hs => h s2 (List.mem_cons_of_mem svc hs))
    simp [initAllServices, h0, ih2]

theorem initAllServices_first_err (l : List Service) (i : Nat) (e : String)
    (hi : i < l.length)
    (hb : ∀ svc ∈ l.take i, svc.initErr = none)
    (he : (l.get ⟨i, hi⟩).initErr = some e) :
    initAllServices l = (some e, i + 1) := by
  induction l generalizing i with
  | nil => simp at hi
  | cons svc rest ih =>
    cases i with
    | zero =>
      simp only [List.get] at he
      simp [initAllServices, he]
    | succ i =>
      have h0 : svc.initErr = none := by
        apply hb svc
        simp [List.take_succ_cons]
      have hi2 : i < rest.length := by simpa using hi
      have hb2 : ∀ s2 ∈ rest.take i, s2.initErr = none := by
        intro s2 hs
        apply hb s2
        simp [List.take_succ_cons, hs]
      have he2 : (rest.get ⟨i, hi2⟩).initErr = some e := by
        simpa using he
      simp [initAllServices, h0, ih i hi2 hb2 he2]

theorem serviceKeeper_init_of_wrong_state (s : ServiceKeeper)
    (h : s.state ≠ srvStateInit) :
    s.Init = (some ErrWrongState, s, 0) := by
  simp [ServiceKeeper.Init, ServiceKeeper.checkState, h]

theorem serviceKeeper_init_of_init_state (s : ServiceKeeper)
    (h : s.state = srvStateInit) :
    s.Init = ((initAllServices s.Services).1,
      { s with state := srvStateReady }, (initAllServices s.Services).2) := by
  simp [ServiceKeeper.Init, ServiceKeeper.checkState, h]

/-! ### Parts of the system present only as declarations, modelled from
the spec -/

/-- Modelled from the spec: the Error Latch operation `record(err)`.  The
source declares the latch's storage (the `err error` and `mux sync.Mutex`
fields of `Application`) but no record operation appears anywhere in
`src`.  Per spec section 4.2, `record` is a no-op if the error is empty or
if a value is already held, and otherwise stores the error under the
exclusive mutex (the mutex itself is not representable in a sequential
model; atomicity is implicit in `record` being a single step). -/
def record (latch : Option String) (e : Option String) : Option String :=
  match e with
  | none => latch
  | some x =>
    match latch with
    | some held => some held
    | none => some x

/-- Folding `record` over the sequence of errors reported during one run,
in arrival order. -/
def recordAll (latch : Option String) (es : List (Option String)) :
    Option String :=
  es.foldl record latch

/-- Modelled from the spec: the Signal Listener's race (spec section 4.4).
The source declares `TerminationTimeout` and `ErrTermTimeout` but contains
no listener; per the spec, once a halt has occurred the listener races the
termination grace-period deadline against the Shutdown Signal closing, and
records `ErrTermTimeout` into the latch exactly when the deadline wins
(the work routine did not return within the grace period); otherwise it
exits silently.  `haltOccurred` and `deadlineWins` encode the outcome of
those two races. -/
def signalListenerOutcome (haltOccurred deadlineWins : Bool)
    (latch : Option String) : Option String :=
  if haltOccurred then
    if deadlineWins then record latch (some ErrTermTimeout) else latch
  else latch

theorem recordAll_of_some (x : String) (es : List (Option String)) :
    recordAll (some x) es = some x := by
  induction es with
  | nil => rfl
  | cons e es ih =>
    cases e with
    | none => simpa [recordAll, record] using ih
    | some y => simpa [recordAll, record] using ih

theorem recordAll_none_eq_findSome (es : List (Option String)) :
    recordAll none es = es.findSome? id := by
  induction es with
  | nil => rfl
  | cons e es ih =>
    cases e with
    | none => simpa [recordAll, record] using ih
    | some y => simpa [recordAll, record] using recordAll_of_some y es

/-! ### Concrete instances used by counterexamples and witnesses -/

/-- An `Application` ready to run whose resource capability fails to
initialize with the error `"E"`. -/
def appResFail : Application :=
  { MainFunc := some none, Resources := some { initErr := some "E" },
    TerminationTimeout := 0, InitializationTimeout := 0,
    appState := appStateInit, err := none,
    haltClosed := false, doneClosed := false }

/-- An `Application` with a work routine configured, observed after some
call already won the `Init→Running` transition. -/
def appSecondRun : Application :=
  { MainFunc := some none, Resources := none,
    TerminationTimeout := 0, InitializationTimeout := 0,
    appState := appStateRunning, err := none,
    haltClosed := false, doneClosed := false }

/-- An `Application` observed after a successful `Halt`: state `Halting`,
halt channel closed, done channel still open. -/
def appHalting : Application :=
  { MainFunc := some none, Resources := none,
    TerminationTimeout := 0, InitializationTimeout := 0,
    appState := appStateHalt, err := none,
    haltClosed := true, doneClosed := false }

/-- An `Application` with no work routine configured. -/
def appNoMain : Application :=
  { MainFunc := none, Resources := none,
    TerminationTimeout := 0, InitializationTimeout := 0,
    appState := appStateInit, err := none,
    haltClosed := false, doneClosed := false }

/-- A fresh `ServiceKeeper` whose second service fails to initialize. -/
def skSecondFails : ServiceKeeper :=
  { Services := [{ initErr := none }, { initErr := some "X" },
      { initErr := none }],
    state := srvStateInit }

/-- A fresh `ServiceKeeper` with an empty `Services` slice. -/
def skEmpty : ServiceKeeper := { Services := [], state := srvStateInit }

/-! ### The claims -/

/-- C1, counterexample: the claim says every state change is performed via
the atomic compare-and-set transition operation and that the state moves
through `Init, Running, Halting, Shutdown` taking each listed transition.
On the resource-initialization-failure path of `Run` the source instead
writes `appState = appStateShutdown` with a plain store (line 68): the
trace of `Run` on `appResFail` contains a direct `storeWrite` of
`Shutdown`, while none of the CAS transitions `Running→Halting`,
`Halting→Shutdown` (nor a CAS `Running→Shutdown`) ever occurred. -/
theorem c1_state_written_directly :
    Ev.storeWrite appStateShutdown ∈ (appResFail.run).2.2 ∧
    Ev.casWrite appStateRunning appStateHalt ∉ (appResFail.run).2.2 ∧
    Ev.casWrite appStateHalt appStateShutdown ∉ (appResFail.run).2.2 ∧
    Ev.casWrite appStateRunning appStateShutdown ∉ (appResFail.run).2.2 ∧
    (appResFail.run).2.1.appState = appStateShutdown := by
  refine ⟨?_, ?_, ?_, ?_, ?_⟩ <;> decide

/-- C1, amended: across any sequence of `Run`/`Halt`/`Shutdown` calls, the
CAS transitions `Init→Running` and `Running→Halting` each succeed at most
once (concurrent losers are no-ops), every successful CAS is one of those
two, and the only non-CAS state write is the direct store of `Shutdown`
performed by the resource-initialization-failure path of `Run` (which
skips `Halting`); `Halting→Shutdown` is never performed. -/
theorem c1_transitions_amended (a : Application) (ops : List AOp) :
    evCount isCasIR (runA a ops).2 ≤ 1 ∧
    evCount isCasRH (runA a ops).2 ≤ 1 ∧
    (∀ n, Ev.storeWrite n ∈ (runA a ops).2 → n = appStateShutdown) ∧
    (∀ o n, Ev.casWrite o n ∈ (runA a ops).2 →
      (o = appStateInit ∧ n = appStateRunning) ∨
      (o = appStateRunning ∧ n = appStateHalt)) := by
  refine ⟨?_, ?_, ?_, ?_⟩
  · refine le_trans (evCount_runA_le isCasIR boundIR stepA_casIR_le ops a) ?_
    unfold boundIR
    split <;> omega
  · refine le_trans (evCount_runA_le isCasRH boundRH stepA_casRH_le ops a) ?_
    unfold boundRH
    split <;> omega
  · intro n hn
    exact mem_runA (fun ev => ∀ m, ev = Ev.storeWrite m → m = appStateShutdown)
      stepA_store_shutdown ops a (Ev.storeWrite n) hn n rfl
  · intro o n hn
    exact mem_runA (fun ev => ∀ u v, ev = Ev.casWrite u v →
        (u = appStateInit ∧ v = appStateRunning) ∨
        (u = appStateRunning ∧ v = appStateHalt))
      stepA_cas_shape ops a (Ev.casWrite o n) hn o n rfl

/-- Witness for the amended C1, at a concrete application and call
sequence. -/
theorem c1_transitions_amended_witness :
    evCount isCasIR (runA appResFail [AOp.run, AOp.halt, AOp.shutdown]).2 ≤ 1 ∧
    (3 : Nat) = appStateShutdown :=
  ⟨(c1_transitions_amended appResFail [AOp.run, AOp.halt, AOp.shutdown]).1,
   (c1_transitions_amended appResFail [AOp.run]).2.2.1 3 (by decide)⟩

/-- C2: across any sequence of `Run`/`Halt`/`Shutdown` calls (each call a
single atomic step, so any concurrent interleaving is some such sequence),
the `halt` channel is closed at most once, each close coincides with a win
of the `Running→Halting` CAS, and a `Halt` (or `Shutdown`) call that loses
the CAS changes nothing and performs no event. -/
theorem c2_halt_closed_at_most_once (a : Application) (ops : List AOp) :
    evCount isCloseHalt (runA a ops).2 ≤ 1 ∧
    evCount isCloseHalt (runA a ops).2 = evCount isCasRH (runA a ops).2 ∧
    (a.appState ≠ appStateRunning →
      a.halt = (a, []) ∧ a.shutdown = (a, [])) := by
  refine ⟨?_, ?_, ?_⟩
  · refine le_trans (evCount_runA_le isCloseHalt boundRH stepA_closeHalt_le ops a) ?_
    unfold boundRH
    split <;> omega
  · exact evCount_runA_eq isCloseHalt isCasRH stepA_closeHalt_eq_casRH ops a
  · intro h
    exact ⟨halt_of_not_running a h,
      by simp [Application.shutdown, halt_of_not_running a h]⟩

/-- Witness for C2, at a concrete application and call sequence. -/
theorem c2_halt_closed_at_most_once_witness :
    evCount isCloseHalt (runA appHalting [AOp.halt, AOp.shutdown]).2 ≤ 1 ∧
    appHalting.halt = (appHalting, []) :=
  ⟨(c2_halt_closed_at_most_once appHalting [AOp.halt, AOp.shutdown]).1,
   ((c2_halt_closed_at_most_once appHalting []).2.2 (by decide)).1⟩

/-- C3, code evaluated at the failing input: the claim says a `Run` call
that loses the `Init→Running` CAS returns `ErrWrongState`.  In the source,
`Run`'s body has no `return` statement on that path (the Go file does not
even compile): on `appSecondRun` (state already `Running`) control falls
off the end of the function and `ErrWrongState` is never produced. -/
theorem c3_run_nonInit_falls_off_end :
    appSecondRun.run = (RunResult.missingReturn, appSecondRun, []) ∧
    RunResult.missingReturn ≠ RunResult.ret (some ErrWrongState) := by
  exact ⟨rfl, by decide⟩

/-- C4: with `MainFunc` nil, `Run` returns `ErrMainOmitted`, leaves the
application (in particular its lifecycle state) unchanged, and performs no
event: no transition is attempted, no signal is touched, no resource is
initialized. -/
theorem c4_run_main_omitted (a : Application) (h : a.MainFunc = none) :
    (a.run).1 = RunResult.ret (some ErrMainOmitted) ∧
    (a.run).2.1 = a ∧
    (a.run).2.2 = [] := by
  simp [run_of_noMain a h]

/-- Witness for C4 at a concrete application in state `Init`. -/
theorem c4_run_main_omitted_witness :
    (appNoMain.run).1 = RunResult.ret (some ErrMainOmitted) ∧
    (appNoMain.run).2.1 = appNoMain ∧
    (appNoMain.run).2.2 = [] :=
  c4_run_main_omitted appNoMain rfl

/-- C5: when the configured resource capability fails to initialize with
error `e`, `Run` returns exactly `e`, the state is forced to `Shutdown`
without the `Halting` cascade (no `closeHalt` event), and neither the work
routine nor the resource watch unit is ever invoked. -/
theorem c5_run_res_init_failure (a : Application) (f : Option String)
    (r : Resources) (e : String) (hm : a.MainFunc = some f)
    (hs : a.appState = appStateInit) (hr : a.Resources = some r)
    (he : r.initErr = some e) :
    (a.run).1 = RunResult.ret (some e) ∧
    (a.run).2.1.appState = appStateShutdown ∧
    (a.run).2.1.err = some e ∧
    Ev.invokeMain ∉ (a.run).2.2 ∧
    Ev.invokeWatch ∉ (a.run).2.2 ∧
    Ev.closeHalt ∉ (a.run).2.2 := by
  simp [run_of_resInit_err a f r e hm hs hr he]

/-- Witness for C5 at a concrete application whose resource fails with
error `"E"`. -/
theorem c5_run_res_init_failure_witness :
    (appResFail.run).1 = RunResult.ret (some "E") ∧
    (appResFail.run).2.1.appState = appStateShutdown ∧
    (appResFail.run).2.1.err = some "E" ∧
    Ev.invokeMain ∉ (appResFail.run).2.2 ∧
    Ev.invokeWatch ∉ (appResFail.run).2.2 ∧
    Ev.closeHalt ∉ (appResFail.run).2.2 :=
  c5_run_res_init_failure appResFail none { initErr := some "E" } "E"
    rfl rfl rfl rfl

/-- C6: the Error Latch's `record` (modelled from the spec; only the
latch's storage exists in `src`) is a no-op on an empty error and a no-op
once a value is held; over any arrival-ordered sequence of reports the
surviving value is the first non-empty error; and on the one completed
error path of `Run` (resource-initialization failure) the value `Run`
returns is exactly the value stored in the `err` field. -/
theorem c6_error_latch_first_write_wins :
    (∀ l, record l none = l) ∧
    (∀ x e, record (some x) e = some x) ∧
    (∀ es, recordAll none es = es.findSome? id) ∧
    (∀ (a : Application) (f : Option String) (r : Resources) (e : String),
      a.MainFunc = some f → a.appState = appStateInit →
      a.Resources = some r → r.initErr = some e →
      (a.run).1 = RunResult.ret ((a.run).2.1.err)) := by
  refine ⟨?_, ?_, ?_, ?_⟩
  · intro l; rfl
  · intro x e; cases e <;> rfl
  · exact recordAll_none_eq_findSome
  · intro a f r e hm hs hr he
    simp [run_of_resInit_err a f r e hm hs hr he]

/-- Witness for C6: a held value survives a later report, and on the
concrete failing-resource application `Run` returns the latched value. -/
theorem c6_error_latch_first_write_wins_witness :
    record (some "a") (some "b") = some "a" ∧
    (appResFail.run).1 = RunResult.ret ((appResFail.run).2.1.err) :=
  ⟨c6_error_latch_first_write_wins.2.1 "a" (some "b"),
   c6_error_latch_first_write_wins.2.2.2 appResFail none
     { initErr := some "E" } "E" rfl rfl rfl rfl⟩

/-- C7, code evaluated at the failing input: the claim says `Shutdown`
calls `Halt` and then attempts `Halting→Shutdown`, whose winner closes the
Shutdown (`done`) signal.  In the source `Shutdown`'s body consists solely
of `a.Halt()`: on `appHalting` (state `Halting`) it changes nothing — the
state stays `Halting` and the `done` channel is never closed (no statement
in the source ever closes it or attempts `Halting→Shutdown`). -/
theorem c7_shutdown_only_calls_halt :
    appHalting.shutdown = (appHalting, []) ∧
    appHalting.appState = appStateHalt ∧
    appHalting.doneClosed = false := by
  exact ⟨rfl, rfl, rfl⟩

/-- C8: the Signal Listener (modelled from the spec; only
`TerminationTimeout` and `ErrTermTimeout` exist in `src`): when a halt has
occurred and the grace-period deadline wins the race against the Shutdown
Signal (the work routine did not return in time), the latched outcome is
`ErrTermTimeout` provided the latch held no earlier error; an earlier
recorded error is preserved. -/
theorem c8_term_timeout_latched (latch : Option String) (h : latch = none) :
    signalListenerOutcome true true latch = some ErrTermTimeout ∧
    (∀ x, signalListenerOutcome true true (some x) = some x) := by
  subst h
  exact ⟨rfl, fun x => rfl⟩

/-- Witness for C8 at the empty latch. -/
theorem c8_term_timeout_latched_witness :
    signalListenerOutcome true true none = some ErrTermTimeout :=
  (c8_term_timeout_latched none rfl).1

/-- C9: `ServiceKeeper.Init` first performs the single guarded transition
(returning `ErrWrongState` when the keeper is not in its initial state,
with no service initialized), then initializes the services strictly in
slice order: if the first `i` services succeed and service `i` fails with
`e`, `Init` returns `e` and exactly `i + 1` services were initialized
(those after the failing one never); with no failure it returns nil after
initializing all of them. -/
theorem c9_service_keeper_init_sequential (s : ServiceKeeper) :
    (s.state ≠ srvStateInit → s.Init = (some ErrWrongState, s, 0)) ∧
    (s.state = srvStateInit →
      ((∀ svc ∈ s.Services, svc.initErr = none) →
        (s.Init).1 = none ∧ (s.Init).2.2 = s.Services.length) ∧
      (∀ i e (hi : i < s.Services.length),
        (∀ svc ∈ s.Services.take i, svc.initErr = none) →
        (s.Services.get ⟨i, hi⟩).initErr = some e →
        (s.Init).1 = some e ∧ (s.Init).2.2 = i + 1)) := by
  constructor
  · intro h
    exact serviceKeeper_init_of_wrong_state s h
  · intro h
    constructor
    · intro hall
      simp [serviceKeeper_init_of_init_state s h,
        initAllServices_all_none s.Services hall]
    · intro i e hi hb he
      simp [serviceKeeper_init_of_init_state s h,
        initAllServices_first_err s.Services i e hi hb he]

/-- Witness for C9: on a fresh keeper whose second service fails with
`"X"`, `Init` returns `"X"` having initialized exactly two services. -/
theorem c9_service_keeper_init_sequential_witness :
    (skSecondFails.Init).1 = some "X" ∧ (skSecondFails.Init).2.2 = 2 :=
  ((c9_service_keeper_init_sequential skSecondFails).2 rfl).2 1 "X"
    (by decide) (by decide) (by decide)

/-- C10: `ServiceKeeper.Init` consumes its guard before touching any
service: from the initial state the keeper always ends in `srvStateReady`
(even when a service fails), any later `Init` call on the resulting keeper
returns `ErrWrongState` with zero services initialized (no retry), and
with an empty `Services` slice `Init` succeeds with nil. -/
theorem c10_guard_consumed_before_services (s : ServiceKeeper)
    (h : s.state = srvStateInit) :
    (s.Init).2.1.state = srvStateReady ∧
    ((s.Init).2.1).Init = (some ErrWrongState, (s.Init).2.1, 0) ∧
    (s.Services = [] → (s.Init).1 = none ∧ (s.Init).2.2 = 0) := by
  refine ⟨?_, ?_, ?_⟩
  · simp [serviceKeeper_init_of_init_state s h]
  · apply serviceKeeper_init_of_wrong_state
    simp [serviceKeeper_init_of_init_state s h, srvStateReady, srvStateInit]
  · intro hempty
    simp [serviceKeeper_init_of_init_state s h, hempty, initAllServices]

/-- Witness for C10: the failing keeper ends `Ready` and rejects a second
`Init`; the empty keeper succeeds. -/
theorem c10_guard_consumed_before_services_witness :
    (skSecondFails.Init).2.1.state = srvStateReady ∧
    ((skSecondFails.Init).2.1).Init =
      (some ErrWrongState, (skSecondFails.Init).2.1, 0) ∧
    (skEmpty.Init).1 = none :=
  ⟨(c10_guard_consumed_before_services skSecondFails rfl).1,
   (c10_guard_consumed_before_services skSecondFails rfl).2.1,
   ((c10_guard_consumed_before_services skEmpty rfl).2.2 rfl).1⟩

end Goservice
